import Mathlib

/-!
Verification development for mdworks (src/mdworks/general.py): a shallow
embedding of the single function make_md_workflow, which assembles a
FireWorks workflow for one leg of an MD simulation, together with theorems
checking the specified behaviour.

External library objects (fireworks Firework/Workflow/task classes, the
mdsynthesis Sim record, yaml loading, os.path) are modelled as plain data
and pure functions; make_md_workflow itself is translated line by line
from the Python source.
-/

namespace MDWorks

/-- Model of Python os.path.join on two components: if the second component
is absolute it wins; a first component that is empty or ends in the
separator is concatenated directly; otherwise a separator is inserted. -/
def pjoin (a b : String) : String :=
  if b.startsWith "/" then b
  else if a = "" ∨ a.endsWith "/" then a ++ b
  else a ++ "/" ++ b

/-- Model of the three-argument os.path.join used on line 108 of the source. -/
def pjoin3 (a b c : String) : String :=
  pjoin (pjoin a b) c

/-- One entry of the stages list: a remote resource, as the dict keys the
source reads (server, user, staging). -/
structure Stage where
  server : String
  user : String
  staging : String
deriving DecidableEq, Repr

/-- Model of an mdsynthesis Sim record: its uuid, its name and its
categories mapping (an insertion-ordered string dictionary, modelled as an
association list). -/
structure Sim where
  uuid : String
  simName : String
  categories : List (String × String)
deriving DecidableEq, Repr

/-- Python dict assignment d[k] = v on an association list: replace the
value in place when the key is present, append the pair otherwise. -/
def setAssoc (l : List (String × String)) (k v : String) : List (String × String) :=
  if l.any (fun p => p.1 = k) then l.map (fun p => if p.1 = k then (k, v) else p)
  else l ++ [(k, v)]

/-- Line 74 of the source, sim.categories[md_status] = running, as a pure
update of the Sim record. -/
def simUpdated (s : Sim) : Sim :=
  Sim.mk s.uuid s.simName (setAssoc s.categories "md_status" "running")

/-- The spec dictionary given to each Firework: the launch directory key
(absent for the MD Firework) and the category. -/
structure FwSpec where
  launchDir : Option String
  category : String
deriving DecidableEq, Repr

mutual

/-- FireWorks task objects as built by the source, one constructor per
task class, carrying exactly the keyword arguments the source passes
(with library defaults made explicit: max_retry defaults to 0 and
ignore_missing to false for FileTransferTask). -/
inductive Task where
  | fileTransfer (mode : String) (server user : Option String)
      (files : List String) (dest : String) (maxRetry : Nat)
      (shellInterpret ignoreMissing : Bool) : Task
  | script (scriptLine : String) (useShell fizzleBadRc : Bool) : Task
  | mkRunDir (uuid : String) : Task
  | beacon (uuid : String) : Task
  | filePull (dest : String) : Task
  | gromacsContinue (sim : Sim) (archive : String) (stages : List Stage)
      (mdEngine mdCategory localCategory : String)
      (postrunWf postWf : Option PostrunArg) (files : List String) : Task

/-- The postrun_wf / post_wf argument: either a Workflow object, or its
serialised dict form (carrying the Workflow that Workflow.from_dict
reconstructs from it). -/
inductive PostrunArg where
  | wf (w : Workflow) : PostrunArg
  | dict (w : Workflow) : PostrunArg

/-- A FireWorks Firework: its task list, its spec, its name and its fw_id. -/
inductive Firework where
  | mk (tasks : List Task) (spec : FwSpec) (name : String) (fwId : Int) : Firework

/-- A FireWorks Workflow: its fireworks, its links dictionary (fw_id to
list of child fw_ids), its name and its metadata. -/
inductive Workflow where
  | mk (fireworks : List Firework) (links : List (Int × List Int))
      (name : String) (metadata : List (String × String)) : Workflow

end

def Firework.tasks : Firework → List Task
  | .mk ts _ _ _ => ts

def Firework.spec : Firework → FwSpec
  | .mk _ sp _ _ => sp

def Firework.name : Firework → String
  | .mk _ _ n _ => n

def Firework.fwId : Firework → Int
  | .mk _ _ _ i => i

def Workflow.fireworks : Workflow → List Firework
  | .mk fws _ _ _ => fws

def Workflow.links : Workflow → List (Int × List Int)
  | .mk _ ls _ _ => ls

def Workflow.name : Workflow → String
  | .mk _ _ n _ => n

def Workflow.metadata : Workflow → List (String × String)
  | .mk _ _ _ m => m

/-- Conversion applied to postrun_wf before appending: a Workflow object is
used as is, a dict is converted with Workflow.from_dict. -/
def toWorkflow : PostrunArg → Workflow
  | .wf w => w
  | .dict w => w

/-- Model of fireworks Workflow.from_wflow: a copy of the workflow (the
library also reassigns fresh fw_ids, which preserves the graph shape and
is omitted here). -/
def from_wflow (w : Workflow) : Workflow := w

/-- Root fw_ids of a workflow: fireworks that appear as nobody's child. -/
def Workflow.roots (w : Workflow) : List Int :=
  (w.fireworks.map Firework.fwId).filter
    (fun i => !(w.links.any (fun p => p.2.contains i)))

/-- Model of fireworks Workflow.append_wf wf nw fwIds: the fireworks of nw
are added, and each fw_id in fwIds gains the roots of nw as children. -/
def appendWf (w : Workflow) (nw : Workflow) (fwIds : List Int) : Workflow :=
  Workflow.mk (w.fireworks ++ nw.fireworks)
    ((w.links.map (fun p =>
        if fwIds.contains p.1 then (p.1, p.2 ++ nw.roots) else p)) ++ nw.links)
    w.name w.metadata

/-- Exceptions the function can raise. -/
inductive Err where
  | typeError (msg : String) : Err
  | ioError (path : String) : Err
  | valueError (msg : String) : Err
deriving DecidableEq, Repr

/-- The external world the function touches: os.path.exists, yaml files on
disk (a path maps to the stage list its yaml parses to, none when the file
is missing), and the mdsynthesis simulation metadata store (a Sim per
path; mds.Sim creates an empty record for unknown paths, so the map is
total). -/
structure Env where
  pathExists : String → Bool
  yamlFile : String → Option (List Stage)
  sims : String → Sim

/-- Shallow embedding of make_md_workflow from src/mdworks/general.py,
translated line by line. The result pairs the returned workflow (or the
exception raised) with the external state after the call; the state update
of line 74 (sim.categories) happens before any possible exception, so the
second component is the same in every branch. -/
def make_md_workflow (sim : String) (archive : String)
    (stages : Sum String (List Stage))
    (md_engine md_category local_category : String)
    (postrun_wf post_wf : Option PostrunArg)
    (files : Option (List String))
    (env : Env) : Except Err Workflow × Env :=
  -- line 71: sim = mds.Sim(sim)
  let simObj : Sim := simUpdated (env.sims sim)
  -- line 74: sim.categories[md_status] = running (persisted in the store)
  let env1 : Env := Env.mk env.pathExists env.yamlFile
    (fun p => if p = sim then simObj else env.sims p)
  match files with
  -- line 78 iterates files: with the default files=None this raises
  | none => (Except.error (Err.typeError "argument of type NoneType is not iterable"), env1)
  | some filesList =>
    -- line 78: f_exist, computed and never used afterwards
    let _f_exist := filesList.filter (fun f => env1.pathExists (pjoin archive f))
    -- lines 80-82: a string stages argument is a yaml path to load
    let stagesRes : Except Err (List Stage) :=
      match stages with
      | Sum.inl path =>
        match env1.yamlFile path with
        | some l => Except.ok l
        | none => Except.error (Err.ioError path)
      | Sum.inr l => Except.ok l
    match stagesRes with
    | Except.error e => (Except.error e, env1)
    | Except.ok stagesList =>
      -- lines 85-93: one rtransfer FileTransferTask per stage
      let fts_stage : List Task := stagesList.map (fun stage =>
        Task.fileTransfer "rtransfer" (some stage.server) (some stage.user)
          (filesList.map (fun i => pjoin archive i))
          (pjoin stage.staging simObj.uuid) 5 true false)
      -- lines 95-98
      let fw_stage : Firework :=
        Firework.mk fts_stage (FwSpec.mk (some archive) local_category) "staging" (-1)
      -- line 104
      let ft_mkdir : Task := Task.mkRunDir simObj.uuid
      -- lines 107-111
      let ft_copy : Task := Task.fileTransfer "copy" none none
        (filesList.map (fun i => pjoin3 "${STAGING}/" simObj.uuid i))
        (pjoin "${SCRATCHDIR}/" simObj.uuid) 0 true true
      -- lines 114-117
      let ft_md : Task :=
        Task.script ("run_md.sh " ++ pjoin "${SCRATCHDIR}/" simObj.uuid) true true
      -- line 120
      let ft_info : Task := Task.beacon simObj.uuid
      -- lines 122-124
      let fw_md : Firework :=
        Firework.mk [ft_mkdir, ft_copy, ft_md, ft_info] (FwSpec.mk none md_category) "md" (-2)
      -- lines 128-133
      let ft_copyback : Task := Task.filePull archive
      let fw_copyback : Firework :=
        Firework.mk [ft_copyback] (FwSpec.mk (some archive) local_category) "pull" (-3)
      -- lines 139-145: continuation trigger, gromacs only
      if md_engine = "gromacs" then
        let ft_continue : Task := Task.gromacsContinue simObj archive stagesList
          md_engine md_category local_category postrun_wf post_wf filesList
        let fw_continue : Firework :=
          Firework.mk [ft_continue] (FwSpec.mk (some archive) local_category) "continue" (-4)
        -- lines 152-155
        let wf : Workflow := Workflow.mk [fw_stage, fw_md, fw_copyback, fw_continue]
          [(-1, [-2]), (-2, [-3]), (-3, [-4]), (-4, [])]
          (simObj.simName ++ " | md") simObj.categories
        -- lines 157-162: mix in postrun workflow, if given
        match postrun_wf with
        | none => (Except.ok wf, env1)
        | some arg =>
          (Except.ok (appendWf wf (from_wflow (toWorkflow arg)) [-3]), env1)
      else
        (Except.error (Err.valueError ("No known md engine `" ++ md_engine ++ "`.")), env1)

/-- The task class a Task object belongs to. -/
inductive TaskKind where
  | fileTransferTask
  | scriptTask
  | mkRunDirTask
  | beaconTask
  | filePullTask
  | gromacsContinueTask
deriving DecidableEq, Repr

def Task.kind : Task → TaskKind
  | .fileTransfer _ _ _ _ _ _ _ _ => .fileTransferTask
  | .script _ _ _ => .scriptTask
  | .mkRunDir _ => .mkRunDirTask
  | .beacon _ => .beaconTask
  | .filePull _ => .filePullTask
  | .gromacsContinue _ _ _ _ _ _ _ _ _ => .gromacsContinueTask

/-- The mode keyword of a FileTransferTask, none for other task classes. -/
def Task.mode : Task → Option String
  | .fileTransfer m _ _ _ _ _ _ _ => some m
  | _ => none

/-- The max_retry setting of a FileTransferTask, none for other task classes. -/
def Task.retrySetting : Task → Option Nat
  | .fileTransfer _ _ _ _ _ r _ _ => some r
  | _ => none

/-- The fizzle_bad_rc setting of a ScriptTask, none for other task classes. -/
def Task.fizzleSetting : Task → Option Bool
  | .script _ _ f => some f
  | _ => none

/-- The files keyword of a FileTransferTask, none for other task classes. -/
def Task.transferFiles : Task → Option (List String)
  | .fileTransfer _ _ _ fs _ _ _ _ => some fs
  | _ => none

/-- The n-th Firework of a workflow, by position. -/
def Workflow.fwAt (w : Workflow) (n : Nat) : Option Firework :=
  (w.fireworks.drop n).head?

/-- Concrete objects used by the closed counterexample and witness theorems. -/
def demoStage : Stage := Stage.mk "compute.example.org" "user1" "/staging"

def demoSim : Sim := Sim.mk "a1b2c3" "simA" []

def demoEnv : Env :=
  Env.mk (fun _ => false) (fun _ => none) (fun _ => demoSim)

/-- An Env whose yaml store holds a stages file. -/
def demoEnvYaml : Env :=
  Env.mk (fun _ => false)
    (fun p => if p = "stages.yaml" then some [demoStage] else none)
    (fun _ => demoSim)

/-- A one-firework postrun workflow. -/
def demoPostWf : Workflow :=
  Workflow.mk [Firework.mk [Task.filePull "/post"] (FwSpec.mk none "local") "post" (-10)]
    [(-10, [])] "post" []

/-- C1 (amended: postrun_wf omitted). With postrun_wf omitted the returned
workflow holds exactly four Fireworks, named staging, md, pull and
continue: the staging one holds only rtransfer FileTransferTasks, the md
one the execution tasks with the ScriptTask, the pull one the
FilePullTask and the continue one the GromacsContinueTask, and the links
dictionary chains them linearly staging, md, pull, continue. -/
theorem make_md_workflow_four_fireworks_chain
    (s a mc lc : String) (sts : List Stage) (po : Option PostrunArg)
    (fs : List String) (env : Env) :
    ((make_md_workflow s a (Sum.inr sts) "gromacs" mc lc none po (some fs) env).1).map
      (fun wf => (wf.fireworks.map (fun fw => (fw.name, fw.tasks.map (fun t => (t.kind, t.mode)))),
                  wf.links))
    = Except.ok
        ([("staging", sts.map (fun _ => (TaskKind.fileTransferTask, some "rtransfer"))),
          ("md", [(TaskKind.mkRunDirTask, none), (TaskKind.fileTransferTask, some "copy"),
                  (TaskKind.scriptTask, none), (TaskKind.beaconTask, none)]),
          ("pull", [(TaskKind.filePullTask, none)]),
          ("continue", [(TaskKind.gromacsContinueTask, none)])],
         [(-1, [-2]), (-2, [-3]), (-3, [-4]), (-4, [])]) := by
  simp [make_md_workflow, Except.map, List.map_map, Function.comp_def, Task.kind, Task.mode,
    Firework.name, Firework.tasks, Workflow.fireworks, Workflow.links, List.map_const]

/-- C1 counterexample: a valid call that passes a one-firework postrun_wf
gets back a workflow of five Fireworks, not four. -/
theorem make_md_workflow_five_fireworks_with_postrun :
    ((make_md_workflow "simA" "/arch" (Sum.inr [demoStage]) "gromacs" "md" "local"
        (some (PostrunArg.wf demoPostWf)) none (some ["conf.gro"]) demoEnv).1).map
      (fun wf => wf.fireworks.length) = Except.ok 5 ∧ (5 : Nat) ≠ 4 :=
  ⟨rfl, by decide⟩

/-- C2: the continuation Firework (the fourth one) holds exactly one
GromacsContinueTask built from the call's own argument values when
md_engine is gromacs, and any other md_engine makes the call raise
ValueError with the source's message instead of returning a workflow. -/
theorem make_md_workflow_continuation_selection
    (s a e mc lc : String) (sts : List Stage) (pr po : Option PostrunArg)
    (fs : List String) (env : Env) :
    ((make_md_workflow s a (Sum.inr sts) e mc lc pr po (some fs) env).1).map
      (fun wf => (wf.fwAt 3).map Firework.tasks)
    = if e = "gromacs"
      then Except.ok (some [Task.gromacsContinue (simUpdated (env.sims s)) a sts e mc lc pr po fs])
      else Except.error (Err.valueError ("No known md engine `" ++ e ++ "`.")) := by
  by_cases h : e = "gromacs"
  · subst h
    cases pr <;> rfl
  · simp [make_md_workflow, h, Except.map]

/-- C3: when stages is a string it names a yaml file, and the call behaves
exactly as if the list parsed from that file had been passed directly; a
list argument is used unchanged (the right-hand side uses the list as
given). -/
theorem make_md_workflow_yaml_stages
    (s a p e mc lc : String) (l : List Stage) (pr po : Option PostrunArg)
    (fls : Option (List String)) (env : Env)
    (h : env.yamlFile p = some l) :
    make_md_workflow s a (Sum.inl p) e mc lc pr po fls env
      = make_md_workflow s a (Sum.inr l) e mc lc pr po fls env := by
  cases fls <;> simp [make_md_workflow, h]

/-- C3 witness: the yaml resolution theorem applied at a concrete store
holding the file stages.yaml. -/
theorem make_md_workflow_yaml_stages_witness :
    make_md_workflow "simA" "/arch" (Sum.inl "stages.yaml") "gromacs" "md" "local" none none
        (some ["conf.gro"]) demoEnvYaml
      = make_md_workflow "simA" "/arch" (Sum.inr [demoStage]) "gromacs" "md" "local" none none
        (some ["conf.gro"]) demoEnvYaml :=
  make_md_workflow_yaml_stages "simA" "/arch" "stages.yaml" "gromacs" "md" "local" [demoStage]
    none none (some ["conf.gro"]) demoEnvYaml rfl

/-- C4: across the four Fireworks the function builds, the only retry and
fizzle configuration is the delegated engine settings: every staging
FileTransferTask carries max_retry 5, the MD ScriptTask carries
fizzle_bad_rc true, and the only other FileTransferTask (the scratch
copy) keeps the library default max_retry 0; no other task carries any
retry or fizzle setting. -/
theorem make_md_workflow_retry_fizzle_config
    (s a mc lc : String) (sts : List Stage) (pr po : Option PostrunArg)
    (fs : List String) (env : Env) :
    ((make_md_workflow s a (Sum.inr sts) "gromacs" mc lc pr po (some fs) env).1).map
      (fun wf => (wf.fireworks.take 4).map (fun fw =>
        fw.tasks.map (fun t => (t.retrySetting, t.fizzleSetting))))
    = Except.ok
        [sts.map (fun _ => ((some 5 : Option Nat), (none : Option Bool))),
         [(none, none), (some 0, none), (none, some true), (none, none)],
         [(none, none)],
         [(none, none)]] := by
  cases pr <;>
    simp [make_md_workflow, Except.map, appendWf, from_wflow, List.map_map, Function.comp_def,
      Task.retrySetting, Task.fizzleSetting, Firework.tasks, Workflow.fireworks, List.map_const]

/-- C5 counterexample: the call updates the simulation metadata record, so
external state is not left unchanged: at a store whose sim simA has no
categories, the record after the call differs from the record before it. -/
theorem make_md_workflow_mutates_sim_record :
    ((make_md_workflow "simA" "/arch" (Sum.inr [demoStage]) "gromacs" "md" "local"
        none none (some ["conf.gro"]) demoEnv).2).sims "simA" ≠ demoEnv.sims "simA" := by
  decide

/-- C5 (amended): the function executes nothing and only assembles a task
graph, and the one external change it makes is to the simulation metadata
record: the sim named by the call gets its md_status category set to
running; every other sim record, the path-existence view and the yaml
store come back unchanged, on every execution path. -/
theorem make_md_workflow_state_change
    (s a e mc lc : String) (stg : Sum String (List Stage)) (pr po : Option PostrunArg)
    (fls : Option (List String)) (env : Env) :
    (make_md_workflow s a stg e mc lc pr po fls env).2.pathExists = env.pathExists
    ∧ (make_md_workflow s a stg e mc lc pr po fls env).2.yamlFile = env.yamlFile
    ∧ ∀ p, (make_md_workflow s a stg e mc lc pr po fls env).2.sims p
        = if p = s then simUpdated (env.sims s) else env.sims p := by
  have h2 : (make_md_workflow s a stg e mc lc pr po fls env).2
      = Env.mk env.pathExists env.yamlFile
          (fun p => if p = s then simUpdated (env.sims s) else env.sims p) := by
    cases fls with
    | none => rfl
    | some fs =>
      cases stg with
      | inr l =>
        by_cases h : e = "gromacs"
        · subst h
          cases pr <;> rfl
        · simp [make_md_workflow, h]
      | inl p0 =>
        cases hy : env.yamlFile p0 with
        | none => simp [make_md_workflow, hy]
        | some l =>
          by_cases h : e = "gromacs"
          · subst h
            cases pr <;> simp [make_md_workflow, hy]
          · simp [make_md_workflow, hy, h]
  exact ⟨by rw [h2], by rw [h2], fun p => by rw [h2]⟩

/-- C6: the MD Firework's third task is a shell ScriptTask whose command
line is run_md.sh followed by the single argument obtained by joining the
scratch directory prefix with the sim's uuid. -/
theorem make_md_workflow_run_script
    (s a mc lc : String) (sts : List Stage) (pr po : Option PostrunArg)
    (fs : List String) (env : Env) :
    ((make_md_workflow s a (Sum.inr sts) "gromacs" mc lc pr po (some fs) env).1).map
      (fun wf => ((wf.fwAt 1).map Firework.tasks).map (fun ts => (ts.drop 2).head?))
    = Except.ok (some (some (Task.script
        ("run_md.sh " ++ pjoin "${SCRATCHDIR}/" (env.sims s).uuid) true true))) := by
  cases pr <;> rfl

/-- C7: the staging Firework holds exactly one rtransfer FileTransferTask
per stages entry, with that entry's server and user, destination the
entry's staging path joined with the sim's uuid, and the same archive
file list for each. -/
theorem make_md_workflow_staging_tasks
    (s a mc lc : String) (sts : List Stage) (pr po : Option PostrunArg)
    (fs : List String) (env : Env) :
    ((make_md_workflow s a (Sum.inr sts) "gromacs" mc lc pr po (some fs) env).1).map
      (fun wf => (wf.fwAt 0).map Firework.tasks)
    = Except.ok (some (sts.map (fun st =>
        Task.fileTransfer "rtransfer" (some st.server) (some st.user)
          (fs.map (fun i => pjoin a i))
          (pjoin st.staging (env.sims s).uuid) 5 true false))) := by
  cases pr <;> rfl

/-- C8: with files left at its default None the call raises TypeError when
it iterates files on line 78, before any task is built, on every
combination of the other arguments. -/
theorem make_md_workflow_files_none_raises
    (s a e mc lc : String) (stg : Sum String (List Stage)) (pr po : Option PostrunArg)
    (env : Env) :
    (make_md_workflow s a stg e mc lc pr po none env).1
      = Except.error (Err.typeError "argument of type NoneType is not iterable") := rfl

/-- C9: the existence filter f_exist is dead: the returned workflow is the
same whatever os.path.exists answers, and the file list of every staging
FileTransferTask is exactly the archive-joined files list. -/
theorem make_md_workflow_ignores_file_existence
    (s a e mc lc : String) (stg : Sum String (List Stage)) (pr po : Option PostrunArg)
    (fls : Option (List String)) (env : Env) (q : String → Bool)
    (sts : List Stage) (fs : List String) :
    (make_md_workflow s a stg e mc lc pr po fls (Env.mk q env.yamlFile env.sims)).1
      = (make_md_workflow s a stg e mc lc pr po fls env).1
    ∧ ((make_md_workflow s a (Sum.inr sts) "gromacs" mc lc pr po (some fs) env).1).map
        (fun wf => (wf.fwAt 0).map (fun fw => fw.tasks.map Task.transferFiles))
      = Except.ok (some (sts.map (fun _ => some (fs.map (fun i => pjoin a i))))) := by
  constructor
  · cases fls with
    | none => rfl
    | some f2 =>
      cases stg with
      | inr l =>
        by_cases h : e = "gromacs"
        · subst h
          cases pr <;> rfl
        · simp [make_md_workflow, h]
      | inl p0 =>
        cases hy : env.yamlFile p0 with
        | none => simp [make_md_workflow, hy]
        | some l =>
          by_cases h : e = "gromacs"
          · subst h
            cases pr <;> simp [make_md_workflow, hy]
          · simp [make_md_workflow, hy, h]
  · cases pr <;>
      simp [make_md_workflow, Except.map, appendWf, from_wflow, List.map_map, Function.comp_def,
        Task.transferFiles, Firework.tasks, Workflow.fireworks, Workflow.fwAt, List.map_const]

/-- C10: with postrun_wf absent the workflow is the four core Fireworks
with the linear chain; with postrun_wf given (a Workflow, or a dict read
back with Workflow.from_dict) its fireworks are appended and linked as
children of the pull-back Firework (id -3) only, the continuation
Firework (id -4) keeping no postrun children, so the postrun workflow
runs after copyback and in parallel with the continuation. -/
theorem make_md_workflow_postrun_placement
    (s a mc lc : String) (sts : List Stage) (pr po : Option PostrunArg)
    (fs : List String) (env : Env) :
    ((make_md_workflow s a (Sum.inr sts) "gromacs" mc lc pr po (some fs) env).1).map
      (fun wf => (wf.fireworks.map Firework.fwId, wf.links))
    = Except.ok (match pr with
      | none => ([-1, -2, -3, -4], [(-1, [-2]), (-2, [-3]), (-3, [-4]), (-4, [])])
      | some arg =>
        ([-1, -2, -3, -4] ++ (toWorkflow arg).fireworks.map Firework.fwId,
         [(-1, [-2]), (-2, [-3]), (-3, [-4] ++ (toWorkflow arg).roots), (-4, [])]
           ++ (toWorkflow arg).links)) := by
  cases pr <;> rfl

end MDWorks
